import Mathlib

/-!
Shallow embedding of the ydbops rolling-restart sources: the option
validation of pkg/options/restart.go and the baremetal storage restarter.
Go standard-library behaviour the code depends on (net/url Parse,
strconv.Atoi, integer conversions, durationpb packing) is modelled
faithfully to its byte-level semantics on 64-bit platforms.
-/

namespace YdbOps

/-- Characters Go's net/url treats as control bytes (stringContainsCTLByte). -/
def isCTL (c : Char) : Bool := c.toNat < 0x20 || c.toNat == 0x7f

/-- Decimal digit test. -/
def isDigitChar (c : Char) : Bool := '0' ≤ c && c ≤ '9'

/-- Hex digit test (Go net/url ishex). -/
def isHexChar (c : Char) : Bool :=
  ('0' ≤ c && c ≤ '9') || ('a' ≤ c && c ≤ 'f') || ('A' ≤ c && c ≤ 'F')

/-- Hex digit value (Go net/url unhex). -/
def unhex (c : Char) : Nat :=
  if '0' ≤ c && c ≤ '9' then c.toNat - 48
  else if 'a' ≤ c && c ≤ 'f' then c.toNat - 97 + 10
  else if 'A' ≤ c && c ≤ 'F' then c.toNat - 65 + 10
  else 0

/-- Encoding modes of Go net/url unescape that the parser reaches. -/
inductive GoEncoding
  | path
  | userPassword
  | host
  | zone
  | fragment
  deriving DecidableEq, BEq

/-- Go net/url shouldEscape for the encodeHost/encodeZone modes, on bytes
below 0x80: letters, digits, the host sub-delimiters and the unreserved
marks stay unescaped, everything else must be escaped. -/
def shouldEscapeHost (c : Char) : Bool :=
  if ('a' ≤ c && c ≤ 'z') || ('A' ≤ c && c ≤ 'Z') || ('0' ≤ c && c ≤ '9') then false
  else if ['!', '$', '&', Char.ofNat 39, '(', ')', '*', '+', ',', ';', '=',
      ':', '[', ']', '<', '>', '"'].contains c then false
  else if ['-', '_', '.', '~'].contains c then false
  else true

/-- Error-freeness of Go net/url unescape in the given mode: percent escapes
need two hex digits, hosts reject escaped bytes below 0x80 other than %25
and byte values that shouldEscape, zones additionally allow an escaped
space. -/
def unescapeOk (mode : GoEncoding) : List Char → Bool
  | [] => true
  | '%' :: rest =>
    match rest with
    | a :: b :: rest2 =>
      if isHexChar a && isHexChar b then
        if mode == GoEncoding.host && unhex a < 8 && !(a == '2' && b == '5') then false
        else if mode == GoEncoding.zone && !(a == '2' && b == '5')
            && unhex a * 16 + unhex b != 32
            && shouldEscapeHost (Char.ofNat (unhex a * 16 + unhex b)) then false
        else unescapeOk mode rest2
      else false
    | _ => false
  | c :: rest =>
    if (mode == GoEncoding.host || mode == GoEncoding.zone) && c.toNat < 0x80
        && shouldEscapeHost c then false
    else unescapeOk mode rest

/-- Go net/url split with cutc = true: the text before the first separator,
and the remainder after it when the separator occurs. -/
def splitFirst (sep : Char) : List Char → List Char × Option (List Char)
  | [] => ([], none)
  | x :: xs =>
    if x = sep then ([], some xs)
    else
      let p := splitFirst sep xs
      (x :: p.1, p.2)

/-- Go net/url split with cutc = false: the remainder keeps the separator. -/
def splitKeep (sep : Char) : List Char → List Char × List Char
  | [] => ([], [])
  | x :: xs =>
    if x = sep then ([], x :: xs)
    else
      let p := splitKeep sep xs
      (x :: p.1, p.2)

def isSchemeLetter (c : Char) : Bool := ('a' ≤ c && c ≤ 'z') || ('A' ≤ c && c ≤ 'Z')

def isSchemeExtra (c : Char) : Bool :=
  ('0' ≤ c && c ≤ '9') || c == '+' || c == '-' || c == '.'

/-- Loop of Go net/url getScheme beyond the first character: a colon after a
run of scheme characters splits the scheme off, any other character means
the whole input is scheme-free. -/
def getSchemeLoop (orig : List Char) (acc : List Char) : List Char → Option (List Char × List Char)
  | [] => some ([], orig)
  | c :: rest =>
    if c = ':' then some (acc.reverse, rest)
    else if isSchemeLetter c || isSchemeExtra c then getSchemeLoop orig (c :: acc) rest
    else some ([], orig)

/-- Go net/url getScheme; none signals the missing-protocol-scheme error of
a leading colon. -/
def getScheme (s : List Char) : Option (List Char × List Char) :=
  match s with
  | [] => some ([], [])
  | c :: _ =>
    if c = ':' then none
    else if isSchemeLetter c then getSchemeLoop s [] s
    else some ([], s)

/-- Go net/url validOptionalPort: empty, or a colon followed by digits. -/
def validOptionalPortChars : List Char → Bool
  | [] => true
  | c :: rest => c == ':' && rest.all isDigitChar

def lastIdxOfAux (c : Char) : List Char → Nat → Option Nat → Option Nat
  | [], _, best => best
  | x :: xs, i, best => lastIdxOfAux c xs (i + 1) (if x = c then some i else best)

/-- Index of the last occurrence of a character (Go strings.LastIndex). -/
def lastIdxOf (c : Char) (l : List Char) : Option Nat :=
  lastIdxOfAux c l 0 none

/-- Index of the first occurrence of "%25", the zone marker inside a
bracketed host (Go strings.Index). -/
def indexOfPct25 : List Char → Option Nat
  | '%' :: '2' :: '5' :: _ => some 0
  | _ :: rest => (indexOfPct25 rest).map (· + 1)
  | [] => none

/-- Error-freeness of Go net/url parseHost: bracketed hosts need a closing
bracket, an optional valid port and escape-clean zone pieces; other hosts
need a valid optional port after the last colon and escape-clean bytes. -/
def parseHostOk (host : List Char) : Bool :=
  if host.head? == some '[' then
    match lastIdxOf ']' host with
    | none => false
    | some i =>
      validOptionalPortChars (host.drop (i + 1)) &&
        match indexOfPct25 (host.take i) with
        | some z =>
          unescapeOk GoEncoding.host (host.take z)
            && unescapeOk GoEncoding.zone ((host.take i).drop z)
            && unescapeOk GoEncoding.host (host.drop i)
        | none => unescapeOk GoEncoding.host host
  else
    (match lastIdxOf ':' host with
     | none => true
     | some i => validOptionalPortChars (host.drop i)) &&
      unescapeOk GoEncoding.host host

/-- Characters Go net/url validUserinfo admits. -/
def validUserinfoChar (c : Char) : Bool :=
  ('a' ≤ c && c ≤ 'z') || ('A' ≤ c && c ≤ 'Z') || ('0' ≤ c && c ≤ '9') ||
    ['-', '.', '_', ':', '~', '!', '$', '&', Char.ofNat 39, '(', ')', '*',
      '+', ',', ';', '=', '%', '@'].contains c

/-- Error-freeness of Go net/url parseAuthority: the host after the last
"@" must parse, any userinfo before it must be valid and escape-clean. -/
def parseAuthorityOk (authority : List Char) : Bool :=
  match lastIdxOf '@' authority with
  | none => parseHostOk authority
  | some i =>
    parseHostOk (authority.drop (i + 1)) &&
      (let userinfo := authority.take i
       userinfo.all validUserinfoChar &&
         if userinfo.contains ':' then
           unescapeOk GoEncoding.userPassword (userinfo.takeWhile (· != ':'))
             && unescapeOk GoEncoding.userPassword ((userinfo.dropWhile (· != ':')).drop 1)
         else unescapeOk GoEncoding.userPassword userinfo)

/-- Query removal in Go net/url parse, with the ForceQuery special case; the
raw query itself is never validated. -/
def stripQuery (rest : List Char) : List Char :=
  if rest.getLast? == some '?' && !(rest.dropLast.contains '?') then rest.dropLast
  else (splitFirst '?' rest).1

/-- Authority and path handling of Go net/url parse with viaRequest =
false: a double-slash prefix (that is not a triple slash in a scheme-free
input) introduces an authority, the rest is the path. -/
def goParseAuthPathOk (scheme rest : List Char) : Bool :=
  if (!scheme.isEmpty || !(['/', '/', '/'].isPrefixOf rest)) && ['/', '/'].isPrefixOf rest then
    parseAuthorityOk (splitKeep '/' (rest.drop 2)).1
      && unescapeOk GoEncoding.path (splitKeep '/' (rest.drop 2)).2
  else unescapeOk GoEncoding.path rest

/-- Rootless handling of Go net/url parse with viaRequest = false: with a
scheme the rest is stored raw and accepted as-is, without one the first
path segment must be colon-free. -/
def goParseRestOk (scheme rest : List Char) : Bool :=
  if !(['/'].isPrefixOf rest) then
    if !scheme.isEmpty then true
    else if (rest.takeWhile (· != '/')).contains ':' then false
    else goParseAuthPathOk scheme rest
  else goParseAuthPathOk scheme rest

/-- Error-freeness of Go net/url parse with viaRequest = false. -/
def goParseInnerOk (rawURL : List Char) : Bool :=
  if rawURL.any isCTL then false
  else if rawURL == ['*'] then true
  else
    match getScheme rawURL with
    | none => false
    | some (scheme, rest) => goParseRestOk scheme (stripQuery rest)

/-- Whether Go's net/url Parse accepts the string, i.e. returns a nil
error: the fragment is cut off first and checked only for escapes, the rest
goes through parse. Faithful to net/url parse, getScheme, parseAuthority,
parseHost and unescape. -/
def goUrlParseOk (s : String) : Bool :=
  goParseInnerOk (splitFirst '#' s.data).1 &&
    match (splitFirst '#' s.data).2 with
    | none => true
    | some frag => frag.isEmpty || unescapeOk GoEncoding.fragment frag

/-- Whether Go strconv.Atoi accepts the string on a 64-bit platform, and
the value it then returns: an optional sign, one or more decimal digits,
and a value within the signed 64-bit range. -/
def goAtoi (s : String) : Option Int :=
  let p : Int × List Char :=
    match s.data with
    | '+' :: rest => (1, rest)
    | '-' :: rest => (-1, rest)
    | cs => (1, cs)
  if p.2.isEmpty || !(p.2.all isDigitChar) then none
  else
    let n : Int := p.1 * ((p.2.foldl (fun acc c => acc * 10 + (c.toNat - 48)) 0 : Nat) : Int)
    if n < -9223372036854775808 ∨ 9223372036854775807 < n then none else some n

/-- Go conversion uint32(n) of a 64-bit int: reduction modulo 2^32. -/
def goUint32 (n : Int) : Nat := (n % 4294967296).toNat

/-- Wrap-around of a signed 64-bit integer result (Go int64 overflow). -/
def goInt64Wrap (n : Int) : Int :=
  (n + 9223372036854775808) % 18446744073709551616 - 9223372036854775808

/-- Modelled from the spec: membership test on a string slice; stands in
for util.Contains of internal/util, which is not among the given sources. -/
def Contains (l : List String) (s : String) : Bool := l.contains s

/-- The three supported availability modes (pkg/options/restart.go). -/
def AvailabilityModes : List String := ["strong", "weak", "force"]

/-- RestartOptions of pkg/options/restart.go. The CMS sub-options are kept
abstract; their validation outcome is passed to Validate explicitly. -/
structure RestartOptions where
  availabilityMode : String
  tenants : List String
  hosts : List String
  excludeHosts : List String
  restartDuration : Int
  restartRetryNumber : Int

/-- RestartOptions.GetNodeFQDNs: url.Parse every entry in order, fail on
the first rejected one, otherwise return them all. -/
def GetNodeFQDNs : List String → Option (List String)
  | [] => some []
  | h :: rest =>
    if goUrlParseOk h then (GetNodeFQDNs rest).map (fun l => h :: l) else none

/-- RestartOptions.GetNodeIds: strconv.Atoi every entry in order, reject
negatives, convert each accepted id with uint32(id). -/
def GetNodeIds : List String → Option (List Nat)
  | [] => some []
  | h :: rest =>
    match goAtoi h with
    | none => none
    | some id => if id < 0 then none else (GetNodeIds rest).map (fun l => goUint32 id :: l)

/-- RestartOptions.Validate: unsupported mode, negative duration and
negative retry number are rejected first; the hosts must parse as node ids
or as FQDNs; finally the CMS sub-options validate. cmsErr is the outcome of
o.CMS.Validate(), kept abstract since the CMS options are not among the
given sources. -/
def Validate (cmsErr : Option String) (o : RestartOptions) : Option String :=
  if !(Contains AvailabilityModes o.availabilityMode) then
    some "specified not supported availability mode"
  else if o.restartDuration < 0 then
    some "specified invalid restart duration seconds"
  else if o.restartRetryNumber < 0 then
    some "specified invalid restart retry number"
  else if (GetNodeIds o.hosts).isNone && (GetNodeFQDNs o.hosts).isNone then
    some "failed to parse --hosts argument as node ids or host fqdns"
  else cmsErr

/-- One durationpb.Duration value: whole seconds and the remainder in
nanoseconds. -/
structure PbDuration where
  seconds : Int
  nanos : Int
  deriving DecidableEq

/-- RestartOptions.GetRestartDuration: time.Second * duration * retries as
wrapping 64-bit multiplications, packed by durationpb.New (truncated
division, remainder with the sign of the total). -/
def GetRestartDuration (o : RestartOptions) : PbDuration :=
  let ns := goInt64Wrap (goInt64Wrap (1000000000 * o.restartDuration) * o.restartRetryNumber)
  let secs := Int.tdiv ns 1000000000
  { seconds := secs, nanos := ns - secs * 1000000000 }

def isFqdnChar (c : Char) : Bool := isSchemeLetter c || isDigitChar c || c == '-'

/-- Scanner for dot-separated FQDN labels; the flag says whether the scan
stands at the start of a label. -/
def fqdnScan : Bool → List Char → Bool
  | true, [] => false
  | true, c :: rest => isFqdnChar c && fqdnScan false rest
  | false, [] => true
  | false, '.' :: rest => fqdnScan true rest
  | false, c :: rest => isFqdnChar c && fqdnScan false rest

/-- Modelled from the spec: a token that is syntactically a host FQDN —
nonempty dot-separated labels of letters, digits and hyphens, with at least
one letter somewhere (a bare integer is an id, not an FQDN). Used only to
state claims about host references, never by the embedded code itself. -/
def isHostFqdn (s : String) : Bool :=
  fqdnScan true s.data && s.data.any isSchemeLetter

/-- Modelled from the spec: the node kinds of the catalog. -/
inductive NodeKind
  | storage
  | compute
  deriving DecidableEq

/-- Modelled from the spec: one Ydb_Maintenance.Node as the restarter sees
it — numeric id, host and kind. -/
structure Node where
  id : Nat
  host : String
  kind : NodeKind

/-- The cluster snapshot handed to Filter. -/
structure ClusterNodesInfo where
  allNodes : List Node

/-- Modelled from the spec: the already-resolved selection parameters the
Filter operation receives — node ids or host FQDNs. -/
structure FilterNodeParams where
  selectedNodeIds : List Nat
  selectedHostFQDNs : List String

/-- The baremetal options: the deployment-mode flag selecting the internal
unit name, and the user-supplied ssh arguments. -/
structure StorageBaremetalOpts where
  kikimrStorageUnit : Bool
  sshArgs : List String

structure StorageBaremetalRestarter where
  opts : StorageBaremetalOpts

def defaultStorageSystemdUnit : String := "ydb-server-storage.service"

def internalStorageSystemdUnit : String := "kikimr"

/-- The remote shell command built by restartNodeBySystemdUnit. -/
def remoteRestartCommand (unitName : String) : String :=
  "(test -x /bin/systemctl && sudo systemctl restart " ++ unitName ++ ")"

def isToolName (a : String) : Bool := a == "ssh" || a == "pssh" || a == "nssh"

/-- stripCommandFromArgs: the last ssh/pssh/nssh token becomes the command,
defaulting to ssh, and every such token is removed from the remaining
arguments. -/
def stripCommandFromArgs (args : List String) : String × List String :=
  args.foldl
    (fun acc arg => if isToolName arg then (arg, acc.2) else (acc.1, acc.2 ++ [arg]))
    ("ssh", [])

/-- The external process an invocation launches: the tool and its argument
vector. -/
structure ExecCommand where
  tool : String
  args : List String
  deriving DecidableEq

/-- The switch over the ssh command in restartNodeBySystemdUnit: for ssh
the host precedes the remote command, for nssh/pssh the command precedes
the host, anything else is the unsupported-tool error. -/
def buildSshInvocation (sshCommand : String) (remaining : List String) (host remoteCmd : String) :
    Option ExecCommand :=
  if sshCommand = "ssh" then
    some { tool := sshCommand, args := ["run"] ++ remaining ++ [host, remoteCmd] }
  else if sshCommand = "nssh" ∨ sshCommand = "pssh" then
    some { tool := sshCommand, args := ["run"] ++ remaining ++ [remoteCmd, host] }
  else none

/-- restartNodeBySystemdUnit up to the launch of the external process:
strip the tool from the ssh arguments and build the invocation. -/
def restartNodeBySystemdUnit (host unitName : String) (sshArgs : List String) :
    Option ExecCommand :=
  buildSshInvocation (stripCommandFromArgs sshArgs).1 (stripCommandFromArgs sshArgs).2
    host (remoteRestartCommand unitName)

/-- StorageBaremetalRestarter.RestartNode: the systemd unit comes from the
deployment-mode option alone, then delegate to restartNodeBySystemdUnit
against the node's host. -/
def StorageBaremetalRestarter.RestartNode (r : StorageBaremetalRestarter) (node : Node) :
    Option ExecCommand :=
  restartNodeBySystemdUnit node.host
    (if r.opts.kikimrStorageUnit then internalStorageSystemdUnit else defaultStorageSystemdUnit)
    r.opts.sshArgs

/-- Modelled from the spec: FilterStorageNodes (not among the given
sources) keeps exactly the storage-kind nodes. -/
def FilterStorageNodes (nodes : List Node) : List Node :=
  nodes.filter (fun n => decide (n.kind = NodeKind.storage))

/-- Modelled from the spec: FilterByNodeIdOrFQDN (not among the given
sources) — an empty filter selects every node, otherwise the nodes whose
id or host is listed. -/
def FilterByNodeIdOrFQDN (nodes : List Node) (sp : FilterNodeParams) : List Node :=
  if sp.selectedNodeIds.isEmpty && sp.selectedHostFQDNs.isEmpty then nodes
  else nodes.filter (fun n =>
    sp.selectedNodeIds.contains n.id || sp.selectedHostFQDNs.contains n.host)

/-- StorageBaremetalRestarter.Filter: the storage nodes of the cluster,
restricted by the selection parameters. -/
def StorageBaremetalRestarter.Filter (_r : StorageBaremetalRestarter) (sp : FilterNodeParams)
    (cluster : ClusterNodesInfo) : List Node :=
  FilterByNodeIdOrFQDN (FilterStorageNodes cluster.allNodes) sp

/-- The fold of stripCommandFromArgs in closed form: the last tool token
(or the seed) paired with the accumulated non-tool arguments. -/
theorem stripLoop_eq (args : List String) (c : String) (rem : List String) :
    args.foldl (fun acc arg => if isToolName arg then (arg, acc.2) else (acc.1, acc.2 ++ [arg]))
      (c, rem)
      = ((args.filter isToolName).getLastD c, rem ++ args.filter (fun a => !(isToolName a))) := by
  induction args generalizing c rem with
  | nil => simp
  | cons a rest ih =>
    simp only [List.foldl_cons]
    by_cases h : isToolName a = true
    · rw [if_pos h, ih, List.filter_cons_of_pos h, List.getLastD_cons,
        List.filter_cons_of_neg (by simp [h])]
    · rw [if_neg h, ih, List.filter_cons_of_neg h, List.filter_cons_of_pos (by simp [h]),
        List.append_assoc, List.singleton_append]

/-- stripCommandFromArgs in closed form. -/
theorem stripCommandFromArgs_eq (args : List String) :
    stripCommandFromArgs args
      = ((args.filter isToolName).getLastD "ssh", args.filter (fun a => !(isToolName a))) := by
  simpa [stripCommandFromArgs] using stripLoop_eq args "ssh" []

/-- The last element of a list of tool names, or a tool-name default, is a
tool name. -/
theorem isToolName_getLastD (l : List String) (d : String) (hd : isToolName d = true)
    (h : ∀ a ∈ l, isToolName a = true) : isToolName (l.getLastD d) = true := by
  induction l generalizing d with
  | nil => simpa using hd
  | cons a rest ih =>
    rw [List.getLastD_cons]
    exact ih a (h a (by simp)) (fun x hx => h x (by simp [hx]))

/-- The command stripCommandFromArgs extracts is always one of the three
supported tools. -/
theorem stripCommandFromArgs_fst_tool (args : List String) :
    isToolName (stripCommandFromArgs args).1 = true := by
  rw [stripCommandFromArgs_eq]
  exact isToolName_getLastD _ _ rfl (fun a ha => (List.mem_filter.1 ha).2)

/-- For a supported tool the switch of restartNodeBySystemdUnit launches a
process whose arguments hold the remote command and the host. -/
theorem buildSshInvocation_tool (t : String) (rem : List String) (host cmd : String)
    (h : isToolName t = true) :
    ∃ c, buildSshInvocation t rem host cmd = some c ∧ cmd ∈ c.args ∧ host ∈ c.args := by
  simp only [isToolName, Bool.or_eq_true, beq_iff_eq] at h
  rcases h with (h | h) | h <;> subst h
  · exact ⟨_, rfl, by simp, by simp⟩
  · exact ⟨_, rfl, by simp, by simp⟩
  · exact ⟨_, rfl, by simp, by simp⟩

/-- restartNodeBySystemdUnit always launches, and the launched arguments
hold the remote restart command for the unit and the target host. -/
theorem restartNodeBySystemdUnit_mem (host unitName : String) (sshArgs : List String) :
    ∃ c, restartNodeBySystemdUnit host unitName sshArgs = some c
      ∧ remoteRestartCommand unitName ∈ c.args ∧ host ∈ c.args := by
  exact buildSshInvocation_tool _ _ _ _ (stripCommandFromArgs_fst_tool sshArgs)

/-- C10: stripCommandFromArgs always yields one of ssh, pssh, nssh, so the
unsupported-tool error branch of restartNodeBySystemdUnit is unreachable:
the invocation is built for every input argument list. -/
theorem stripCommand_always_supported (sshArgs : List String) (host unitName : String) :
    isToolName (stripCommandFromArgs sshArgs).1 = true
      ∧ (restartNodeBySystemdUnit host unitName sshArgs).isSome = true := by
  refine ⟨stripCommandFromArgs_fst_tool sshArgs, ?_⟩
  obtain ⟨c, hc, -, -⟩ := restartNodeBySystemdUnit_mem host unitName sshArgs
  simp [hc]

/-- C4: the tool is the last ssh/pssh/nssh occurrence in the ssh arguments,
defaulting to ssh; all such tokens are stripped from the forwarded
arguments; the host precedes the remote command for ssh, follows it for
nssh/pssh; any other tool name would be an error. -/
theorem restart_ssh_tool_selection (sshArgs : List String) (host unitName : String) :
    (stripCommandFromArgs sshArgs).1 = (sshArgs.filter isToolName).getLastD "ssh"
    ∧ (stripCommandFromArgs sshArgs).2 = sshArgs.filter (fun a => !(isToolName a))
    ∧ restartNodeBySystemdUnit host unitName sshArgs
        = buildSshInvocation ((sshArgs.filter isToolName).getLastD "ssh")
            (sshArgs.filter (fun a => !(isToolName a))) host (remoteRestartCommand unitName)
    ∧ (∀ t rem cmd, buildSshInvocation t rem host cmd
        = if t = "ssh" then some { tool := t, args := ["run"] ++ rem ++ [host, cmd] }
          else if t = "nssh" ∨ t = "pssh" then
            some { tool := t, args := ["run"] ++ rem ++ [cmd, host] }
          else none) := by
  refine ⟨?_, ?_, ?_, fun t rem cmd => rfl⟩
  · rw [stripCommandFromArgs_eq]
  · rw [stripCommandFromArgs_eq]
  · unfold restartNodeBySystemdUnit
    rw [stripCommandFromArgs_eq]

/-- C5: RestartNode launches the remote restart of the systemd unit picked
by the deployment-mode option alone — ydb-server-storage.service in the
standard mode, kikimr in the internal mode — against the node's host. -/
theorem storage_restart_unit_choice (r : StorageBaremetalRestarter) (node : Node) :
    ∃ c, r.RestartNode node = some c
      ∧ remoteRestartCommand
          (if r.opts.kikimrStorageUnit then internalStorageSystemdUnit
           else defaultStorageSystemdUnit) ∈ c.args
      ∧ node.host ∈ c.args
      ∧ defaultStorageSystemdUnit = "ydb-server-storage.service"
      ∧ internalStorageSystemdUnit = "kikimr" := by
  obtain ⟨c, hc, h1, h2⟩ := restartNodeBySystemdUnit_mem node.host
    (if r.opts.kikimrStorageUnit then internalStorageSystemdUnit else defaultStorageSystemdUnit)
    r.opts.sshArgs
  exact ⟨c, hc, h1, h2, rfl, rfl⟩

/-- C8: Filter yields a sublist of the cluster's nodes, every returned node
is of storage kind, and when the selection parameters are nonempty every
returned node matches them by id or by host. -/
theorem storage_filter_sound (r : StorageBaremetalRestarter) (sp : FilterNodeParams)
    (cluster : ClusterNodesInfo) :
    List.Sublist (r.Filter sp cluster) cluster.allNodes
    ∧ ((r.Filter sp cluster).all (fun n => decide (n.kind = NodeKind.storage))) = true
    ∧ ((r.Filter sp cluster).all (fun n =>
          (sp.selectedNodeIds.isEmpty && sp.selectedHostFQDNs.isEmpty)
            || sp.selectedNodeIds.contains n.id
            || sp.selectedHostFQDNs.contains n.host)) = true := by
  unfold StorageBaremetalRestarter.Filter FilterByNodeIdOrFQDN FilterStorageNodes
  by_cases he : (sp.selectedNodeIds.isEmpty && sp.selectedHostFQDNs.isEmpty) = true
  · rw [if_pos he]
    refine ⟨List.filter_sublist _, ?_, ?_⟩
    · exact List.all_eq_true.2 (fun n hn => (List.mem_filter.1 hn).2)
    · exact List.all_eq_true.2 (fun n _ => by simp [he])
  · rw [if_neg he]
    refine ⟨(List.filter_sublist _).trans (List.filter_sublist _), ?_, ?_⟩
    · exact List.all_eq_true.2
        (fun n hn => (List.mem_filter.1 (List.mem_of_mem_filter hn)).2)
    · refine List.all_eq_true.2 (fun n hn => ?_)
      have h2 := (List.mem_filter.1 hn).2
      simp only [Bool.or_eq_true] at h2 ⊢
      tauto

/-- C7 (amended): GetNodeFQDNs fails exactly when Go's url.Parse rejects
some entry — a far weaker test than being a host FQDN — and on success
returns every entry in order. -/
theorem getNodeFQDNs_spec_amended (hosts : List String) :
    GetNodeFQDNs hosts = if hosts.all goUrlParseOk then some hosts else none := by
  induction hosts with
  | nil => rfl
  | cons h rest ih =>
    simp only [GetNodeFQDNs]
    by_cases hh : goUrlParseOk h = true
    · rw [if_pos hh, ih]
      by_cases hr : rest.all goUrlParseOk = true
      · simp [hh, hr]
      · simp [hh, hr]
    · rw [if_neg hh]
      simp [hh]

/-- C7 counterexample: "a b!" is not syntactically a host reference, yet
url.Parse accepts it (it is a plain path) and GetNodeFQDNs succeeds on it. -/
theorem getNodeFQDNs_lenient_counterexample :
    GetNodeFQDNs ["a b!"] = some ["a b!"] ∧ isHostFqdn "a b!" = false := by
  exact ⟨by decide, by decide⟩

/-- C6 (amended): GetNodeIds rejects any entry that is not a non-negative
64-bit integer, and otherwise returns every parsed id reduced modulo 2^32,
in input order. -/
theorem getNodeIds_spec_amended (hosts : List String) :
    GetNodeIds hosts =
      if hosts.all (fun h => match goAtoi h with | some n => decide (0 ≤ n) | none => false)
      then some (hosts.map (fun h => goUint32 ((goAtoi h).getD 0)))
      else none := by
  induction hosts with
  | nil => rfl
  | cons h rest ih =>
    cases hg : goAtoi h with
    | none =>
      simp only [GetNodeIds, hg]
      simp [hg]
    | some n =>
      simp only [GetNodeIds, hg]
      by_cases hn : n < 0
      · rw [if_pos hn]
        have hneg : ¬ (0 ≤ n) := by omega
        simp [hg, hneg]
      · rw [if_neg hn, ih]
        have h0 : 0 ≤ n := by omega
        by_cases hr : rest.all
            (fun h => match goAtoi h with | some n => decide (0 ≤ n) | none => false) = true
        · simp [hg, h0, hr]
        · simp [hg, h0, hr]

/-- C6 counterexample: "4294967296" parses as the non-negative integer
2^32, yet GetNodeIds succeeds with id 0 for it — the uint32 conversion
truncates, so the returned id is not the parsed id. -/
theorem getNodeIds_truncation_counterexample :
    GetNodeIds ["4294967296"] = some [0]
      ∧ goAtoi "4294967296" = some 4294967296
      ∧ (0 : Nat) ≠ 4294967296 := by
  exact ⟨by decide, by decide, by decide⟩

/-- Membership in the availability-mode list, spelled out. -/
theorem contains_modes_iff (m : String) :
    Contains AvailabilityModes m = true
      ↔ (m = "strong" ∨ m = "weak" ∨ m = "force") := by
  simp [Contains, AvailabilityModes]

/-- C1: the mixed hosts list of an FQDN and a bare non-negative integer
passes Validate — GetNodeFQDNs succeeds because url.Parse also accepts "5",
so the both-parses-fail condition is never met for this mix. -/
theorem validate_accepts_mixed_hosts_and_ids :
    Validate none
        { availabilityMode := "strong", tenants := [],
          hosts := ["host.example.com", "5"], excludeHosts := [],
          restartDuration := 3, restartRetryNumber := 3 } = none
      ∧ isHostFqdn "host.example.com" = true
      ∧ goAtoi "5" = some 5 := by
  exact ⟨by decide, by decide, by decide⟩

/-- C3: Validate rejects an unsupported availability mode and negative
duration or retry numbers; conversely, with a supported mode, non-negative
numbers, validating CMS sub-options and hosts that parse as node ids or as
FQDNs, it returns nil. -/
theorem validate_mode_and_bounds (cmsErr : Option String) (o : RestartOptions) :
    ((¬ (o.availabilityMode = "strong" ∨ o.availabilityMode = "weak"
          ∨ o.availabilityMode = "force")
        ∨ o.restartDuration < 0 ∨ o.restartRetryNumber < 0)
      → (Validate cmsErr o).isSome = true)
    ∧ ((o.availabilityMode = "strong" ∨ o.availabilityMode = "weak"
          ∨ o.availabilityMode = "force")
        → 0 ≤ o.restartDuration → 0 ≤ o.restartRetryNumber → cmsErr = none
        → ((GetNodeIds o.hosts).isSome = true ∨ (GetNodeFQDNs o.hosts).isSome = true)
        → Validate cmsErr o = none) := by
  constructor
  · intro h
    unfold Validate
    cases hmb : Contains AvailabilityModes o.availabilityMode with
    | false => simp
    | true =>
      simp only [Bool.not_true]
      rw [if_neg (by simp)]
      rcases h with h | h | h
      · exact absurd ((contains_modes_iff _).1 hmb) h
      · rw [if_pos h]; rfl
      · by_cases hdneg : o.restartDuration < 0
        · rw [if_pos hdneg]; rfl
        · rw [if_neg hdneg, if_pos h]; rfl
  · intro hm hd hr hcms hparse
    unfold Validate
    have hc : Contains AvailabilityModes o.availabilityMode = true :=
      (contains_modes_iff _).2 hm
    rw [hc]
    simp only [Bool.not_true]
    have h2 : ¬ (o.restartDuration < 0) := by omega
    have h3 : ¬ (o.restartRetryNumber < 0) := by omega
    have h4 : ¬ (((GetNodeIds o.hosts).isNone && (GetNodeFQDNs o.hosts).isNone) = true) := by
      intro hcon
      rw [Bool.and_eq_true] at hcon
      rcases hparse with h | h
      · rw [Option.isNone_iff_eq_none.1 hcon.1] at h; simp at h
      · rw [Option.isNone_iff_eq_none.1 hcon.2] at h; simp at h
    rw [if_neg (by simp), if_neg h2, if_neg h3, if_neg h4]
    exact hcms

/-- Witness for C3 at concrete inputs: an unsupported mode is rejected, and
a supported mode with id-parsing hosts and zero bounds passes. -/
theorem validate_mode_and_bounds_witness :
    (Validate none
        { availabilityMode := "blah", tenants := [], hosts := [],
          excludeHosts := [], restartDuration := 3, restartRetryNumber := 3 }).isSome = true
    ∧ Validate none
        { availabilityMode := "weak", tenants := [], hosts := ["5"],
          excludeHosts := [], restartDuration := 0, restartRetryNumber := 0 } = none := by
  constructor
  · exact (validate_mode_and_bounds none _).1 (Or.inl (by decide))
  · exact (validate_mode_and_bounds none _).2 (Or.inr (Or.inl rfl)) (by decide) (by decide)
      rfl (Or.inl (by decide))

/-- goInt64Wrap is the identity within the signed 64-bit range. -/
theorem goInt64Wrap_eq_self (n : Int) (h1 : -9223372036854775808 ≤ n)
    (h2 : n < 9223372036854775808) : goInt64Wrap n = n := by
  unfold goInt64Wrap
  rw [Int.emod_eq_of_lt (by omega) (by omega)]
  omega

/-- C2 (amended): whenever the nanosecond total 10^9·duration·retries stays
within the signed 64-bit range, the requested duration is exactly
duration × retries whole seconds with a zero remainder — 3 and 3 give 9
seconds, zero retries give a zero duration; an overflowing total wraps. -/
theorem getRestartDuration_product_of_seconds (o : RestartOptions)
    (hd : 0 ≤ o.restartDuration) (hr : 0 ≤ o.restartRetryNumber)
    (hb : 1000000000 * o.restartDuration * o.restartRetryNumber < 9223372036854775808) :
    GetRestartDuration o
      = { seconds := o.restartDuration * o.restartRetryNumber, nanos := 0 } := by
  have key : goInt64Wrap (goInt64Wrap (1000000000 * o.restartDuration) * o.restartRetryNumber)
      = 1000000000 * (o.restartDuration * o.restartRetryNumber) := by
    rcases hr.lt_or_eq with hr1 | hr0
    · have hd9 : 0 ≤ 1000000000 * o.restartDuration := by positivity
      have hle : 1000000000 * o.restartDuration
          ≤ 1000000000 * o.restartDuration * o.restartRetryNumber :=
        le_mul_of_one_le_right hd9 (by omega)
      have hnn : 0 ≤ 1000000000 * o.restartDuration * o.restartRetryNumber :=
        mul_nonneg hd9 hr
      rw [goInt64Wrap_eq_self (1000000000 * o.restartDuration) (by omega) (by omega),
        goInt64Wrap_eq_self _ (by omega) hb, mul_assoc]
    · rw [← hr0, mul_zero, mul_zero, mul_zero,
        goInt64Wrap_eq_self 0 (by norm_num) (by norm_num)]
  simp only [GetRestartDuration, key]
  have htd : Int.tdiv (1000000000 * (o.restartDuration * o.restartRetryNumber)) 1000000000
      = o.restartDuration * o.restartRetryNumber := by
    rw [mul_comm]
    exact Int.mul_tdiv_cancel _ (by norm_num)
  rw [htd]
  simp only [PbDuration.mk.injEq]
  exact ⟨by simp, by ring⟩

/-- Witness for C2: duration 3 with 3 retries requests exactly 9 seconds. -/
theorem getRestartDuration_product_of_seconds_witness :
    GetRestartDuration
        { availabilityMode := "strong", tenants := [], hosts := [],
          excludeHosts := [], restartDuration := 3, restartRetryNumber := 3 }
      = { seconds := 9, nanos := 0 } := by
  have h := getRestartDuration_product_of_seconds
    { availabilityMode := "strong", tenants := [], hosts := [], excludeHosts := [],
      restartDuration := 3, restartRetryNumber := 3 } (by norm_num) (by norm_num) (by norm_num)
  simpa using h

/-- C2 counterexample: duration 10^10 with one retry overflows the 64-bit
nanosecond total, and the requested duration comes out negative instead of
10^10 × 1 seconds. -/
theorem getRestartDuration_overflow_counterexample :
    GetRestartDuration
        { availabilityMode := "strong", tenants := [], hosts := [],
          excludeHosts := [], restartDuration := 10000000000, restartRetryNumber := 1 }
      = { seconds := -8446744073, nanos := -709551616 }
      ∧ ((-8446744073 : Int) ≠ 10000000000 * 1) := by
  exact ⟨by decide, by decide⟩

end YdbOps
